import Mathlib

/-!
Verification of the pending-changes / merge layer of the bruh.bot admin
dashboard frontend.

JavaScript runtime objects are embedded as insertion-ordered association
lists `AList β = List (String × β)`; object spread `{...a, ...b}` is
`ospread`, property write `o[k] = v` is `oset` (replace in place when the
key exists, append otherwise — JS semantics), and property read `o[k]` is
`olookup`.  Dynamic JSON-like values are `JVal`.

The store operations are translated from
`frontend/src/contexts/config-changes-context.tsx`, the merge-for-display
from the route components (e.g. `BotsPage`), the save handler from
`frontend/src/app/routes/_main.tsx`, and the HTTP client header logic from
`frontend/src/lib/api-client.ts`.
-/

namespace BruhBot

/-- JS object as an insertion-ordered association list. -/
abbrev AList (β : Type) := List (String × β)

/-- Property read `o[k]`: first binding of the key wins. -/
def olookup {β : Type} : AList β → String → Option β
  | [], _ => none
  | (k', v) :: rest, k => if k' == k then some v else olookup rest k

/-- Property write `o[k] = v`: JS keeps the original insertion position of
an existing key and appends new keys at the end. -/
def oset {β : Type} : AList β → String → β → AList β
  | [], k, v => [(k, v)]
  | (k', v') :: rest, k, v =>
    if k' == k then (k, v) :: rest else (k', v') :: oset rest k v

/-- Object spread `{...a, ...b}`: start from the bindings of `a` and write each
binding of `b` in order. -/
def ospread {β : Type} (a b : AList β) : AList β :=
  b.foldl (fun acc p => oset acc p.1 p.2) a

/-- The key list, as `Object.keys` produces it. -/
def keysOf {β : Type} (o : AList β) : List String :=
  o.map Prod.fst

/-- Dynamic JS/JSON value. -/
inductive JVal where
  | null : JVal
  | bool : Bool → JVal
  | num : Int → JVal
  | str : String → JVal
  | arr : List JVal → JVal
  | obj : List (String × JVal) → JVal

/-- JS object type. -/
abbrev JObj := AList JVal

/-- JS truthiness of a value. -/
def truthy : JVal → Bool
  | .null => false
  | .bool b => b
  | .num n => n != 0
  | .str s => s != ""
  | .arr _ => true
  | .obj _ => true

/-- Whether `typeof v` is the string `object` — true for objects, arrays and `null`. -/
def typeofIsObject : JVal → Bool
  | .null => true
  | .arr _ => true
  | .obj _ => true
  | _ => false

/-- The `Array.isArray` test. -/
def isArray : JVal → Bool
  | .arr _ => true
  | _ => false

/-- Entries contributed by spreading a value into an object literal:
objects give their bindings, arrays and strings give index-keyed entries,
every other value spreads to nothing. -/
def toEntries : JVal → JObj
  | .obj o => o
  | .arr xs => (xs.enum).map (fun p => (toString p.1, p.2))
  | .str s => (s.toList.enum).map (fun p => (toString p.1, JVal.str p.2.toString))
  | _ => []

/-- The pending-changes overlay held by `ConfigChangesProvider`
(`config-changes-context.tsx`): a generic-config patch slot and a
deep-partial AI-config patch slot, each possibly absent. -/
structure PendingChanges where
  config : Option JObj
  aiConfig : Option JObj

/-- Initial provider state `useState<PendingChanges>({})`. -/
def emptyPendingChanges : PendingChanges := ⟨none, none⟩

/-- Operation `addConfigChange(updates)`: `config: { ...prev.config, ...updates }`
(spreading an absent slot contributes nothing). -/
def addConfigChange (prev : PendingChanges) (updates : JObj) : PendingChanges :=
  { prev with config := some (ospread (prev.config.getD []) updates) }

/-- The value the `addAIConfigChange` loop stores for one key:
`{ ...currentValue, ...updateValue }` when the update value is a non-array
`object` and the current value is a truthy `object`, the update value
itself otherwise (`currentValue = none` models a missing key, which is
falsy). -/
def aiMergeValue (currentValue : Option JVal) (updateValue : JVal) : JVal :=
  if typeofIsObject updateValue
      && (match currentValue with
          | some cv => truthy cv && typeofIsObject cv
          | none => false)
      && !isArray updateValue then
    JVal.obj (ospread (toEntries (currentValue.getD JVal.null))
      (toEntries updateValue))
  else
    updateValue

/-- One iteration of the `Object.keys(updates).forEach` loop in
`addAIConfigChange`: looks the key up in the accumulator and writes the
merged-or-overwritten value back. -/
def aiStep (acc : JObj) (p : String × JVal) : JObj :=
  oset acc p.1 (aiMergeValue (olookup acc p.1) p.2)

/-- Operation `addAIConfigChange(updates)`: start from `{ ...currentAi }` and fold
the per-key merge step over the entries of the update. -/
def addAIConfigChange (prev : PendingChanges) (updates : JObj) : PendingChanges :=
  let currentAi := prev.aiConfig.getD []
  let mergedAi := updates.foldl aiStep currentAi
  { prev with aiConfig := some mergedAi }

/-- Operation `clearChanges()`: `setPendingChanges({})`. -/
def clearChanges (_prev : PendingChanges) : PendingChanges :=
  emptyPendingChanges

/-- Derived flag `hasPendingChanges`: `Object.keys(pendingChanges.config || {}).length > 0
|| Object.keys(pendingChanges.aiConfig || {}).length > 0`. -/
def hasPendingChanges (pc : PendingChanges) : Bool :=
  decide ((keysOf (pc.config.getD [])).length > 0)
    || decide ((keysOf (pc.aiConfig.getD [])).length > 0)

/-- Merge-for-display performed by the route components (`BotsPage` and
friends): `{ ...data.config, ...pendingChanges.config }`. -/
def mergeForDisplay (serverConfig : JObj) (pc : PendingChanges) : JObj :=
  ospread serverConfig (pc.config.getD [])

/-- Server snapshot plus pending overlay, as seen by a route component:
the authoritative config held by the data-fetching layer next to the
store state. -/
structure AppState where
  serverConfig : JObj
  pending : PendingChanges

/-- Operation `addConfigChange` acting on the page state: only the
`useState` cell of the provider changes, the fetched snapshot is a
distinct value. -/
def appAddConfigChange (st : AppState) (updates : JObj) : AppState :=
  { st with pending := addConfigChange st.pending updates }

/-- Operation `addAIConfigChange` acting on the page state. -/
def appAddAIConfigChange (st : AppState) (updates : JObj) : AppState :=
  { st with pending := addAIConfigChange st.pending updates }

/-- Operation `clearChanges` acting on the page state. -/
def appClearChanges (st : AppState) : AppState :=
  { st with pending := clearChanges st.pending }

/-- Shape `UpdateAIProviderRequest` from `api-client.ts`: one discriminated
provider name plus the optional fields to change on it. -/
structure UpdateAIProviderRequest where
  provider : String
  apiKey : Option String := none
  preferredModel : Option String := none
  endpoint : Option String := none
  voice : Option String := none
deriving DecidableEq, Repr

/-- Keys of the runtime object a caller passes as an
`UpdateAIProviderRequest`: `provider` plus whichever optional fields are
present. -/
def aiProviderKeys (u : UpdateAIProviderRequest) : List String :=
  ["provider"]
    ++ (if u.apiKey.isSome then ["apiKey"] else [])
    ++ (if u.preferredModel.isSome then ["preferredModel"] else [])
    ++ (if u.endpoint.isSome then ["endpoint"] else [])
    ++ (if u.voice.isSome then ["voice"] else [])

/-- Modelled from the spec: the alternate pending-changes store variant
consumed by `_main.tsx` and `_main/ai.tsx` (its defining module is not
among the sources here; only its callers are).  Per spec §3/§4.1 it holds
two slots: a generic-field patch and a single-provider AI patch. -/
structure PendingChangesV where
  config : Option JObj
  aiProvider : Option UpdateAIProviderRequest

/-- Modelled from the spec: the store is created empty. -/
def emptyPendingChangesV : PendingChangesV := ⟨none, none⟩

/-- Modelled from the spec: `getPendingChanges()` returns the current
overlay for submission. -/
def getPendingChanges (s : PendingChangesV) : PendingChangesV := s

/-- Modelled from the spec: `addAIProviderChange(update)` replaces the
provider patch slot wholesale with `update` — each call overwrites the
previous patch object entirely rather than deep-merging. -/
def addAIProviderChange (s : PendingChangesV) (update : UpdateAIProviderRequest) :
    PendingChangesV :=
  { s with aiProvider := some update }

/-- Modelled from the spec: `clearChanges()` resets both slots to empty. -/
def clearChangesV (_s : PendingChangesV) : PendingChangesV :=
  emptyPendingChangesV

/-- Modelled from the spec: `hasPendingChanges` is true iff either slot
has at least one key. -/
def hasPendingChangesV (s : PendingChangesV) : Bool :=
  decide ((keysOf (s.config.getD [])).length > 0)
    || (match s.aiProvider with
        | some u => decide ((aiProviderKeys u).length > 0)
        | none => false)

/-- Notification (`toast.info` / `toast.success` / `toast.error`) shown by
the save handler. -/
inductive Toast where
  | info : String → Toast
  | success : String → Toast
  | error : String → Toast
deriving DecidableEq, Repr

/-- Body of an HTTP request issued during save. -/
inductive RequestBody where
  | configBody : JObj → RequestBody
  | aiProviderBody : UpdateAIProviderRequest → RequestBody

/-- An HTTP request as assembled by `ConfigAPIClient`. -/
structure Request where
  endpoint : String
  method : String
  body : RequestBody

/-- Method `ConfigAPIClient.updateConfig(updates)`: `PATCH /config`. -/
def mkUpdateConfigRequest (updates : JObj) : Request :=
  ⟨"/config", "PATCH", .configBody updates⟩

/-- Method `ConfigAPIClient.updateAIProvider(data)`: `PATCH /config/ai-provider`. -/
def mkUpdateAIProviderRequest (data : UpdateAIProviderRequest) : Request :=
  ⟨"/config/ai-provider", "PATCH", .aiProviderBody data⟩

/-- Observable outcome of one run of the save handler: the requests that
went out, the store state afterwards, and the toast shown. -/
structure SaveOutcome where
  sent : List Request
  pending : PendingChangesV
  toast : Toast

/-- Save handler `handleSave` from `_main.tsx`.  `r1` (resp. `r2`) is the rejection
message of the `updateConfig` (resp. `updateAIProvider`) mutation when
that call rejects, `none` when it resolves.  A rejection is caught by the
`catch` block, which shows an error toast; `clearChanges()` and the
success toast run only after every attempted mutation resolved. -/
def handleSave (r1 r2 : Option String) (s : PendingChangesV) : SaveOutcome :=
  let changes := getPendingChanges s
  if hasPendingChangesV s then
    let step2 : List Request → SaveOutcome := fun sent =>
      match changes.aiProvider with
      | some u =>
        if (aiProviderKeys u).length > 0 then
          match r2 with
          | some msg =>
            { sent := sent ++ [mkUpdateAIProviderRequest u], pending := s,
              toast := .error msg }
          | none =>
            { sent := sent ++ [mkUpdateAIProviderRequest u],
              pending := clearChangesV s,
              toast := .success "Configuration saved successfully" }
        else
          { sent := sent, pending := clearChangesV s,
            toast := .success "Configuration saved successfully" }
      | none =>
        { sent := sent, pending := clearChangesV s,
          toast := .success "Configuration saved successfully" }
    match changes.config with
    | some c =>
      if (keysOf c).length > 0 then
        match r1 with
        | some msg =>
          { sent := [mkUpdateConfigRequest c], pending := s, toast := .error msg }
        | none => step2 [mkUpdateConfigRequest c]
      else step2 []
    | none => step2 []
  else
    { sent := [], pending := s, toast := .info "No changes to save" }

/-- Does the run of `handleSave` attempt the generic-config mutation? -/
def configAttempted (s : PendingChangesV) : Bool :=
  hasPendingChangesV s
    && (match s.config with
        | some c => decide ((keysOf c).length > 0)
        | none => false)

/-- Does the run reach the AI-provider mutation (config step absent or
resolved) and attempt it? -/
def aiAttempted (s : PendingChangesV) : Bool :=
  hasPendingChangesV s
    && (match s.aiProvider with
        | some u => decide ((aiProviderKeys u).length > 0)
        | none => false)

/-- Does some backend mutation reject during this run of `handleSave`?
The AI mutation only runs when the config mutation was skipped or
resolved. -/
def saveRejects (r1 r2 : Option String) (s : PendingChangesV) : Bool :=
  (configAttempted s && r1.isSome)
    || (!(configAttempted s && r1.isSome) && aiAttempted s && r2.isSome)

/-- The header object built by `ConfigAPIClient.fetch`:
a Content-Type default, an X-Admin-Key default, then `...options.headers`. -/
def fetchHeaders (adminKey : String) (optionsHeaders : Option (AList String)) :
    AList String :=
  ospread [("Content-Type", "application/json"), ("X-Admin-Key", adminKey)]
    (optionsHeaders.getD [])

/-- The public request-building methods of `ConfigAPIClient`. -/
inductive ClientMethod where
  | health
  | getConfig
  | updateConfig
  | reloadConfig
  | updateAIProvider
  | addAdmin
  | removeAdmin
  | getVersion
deriving DecidableEq, Repr

/-- The `options.headers` each method passes to `fetch`: `health` passes
an explicit empty object, every other method leaves it undefined. -/
def methodOptionsHeaders : ClientMethod → Option (AList String)
  | .health => some []
  | _ => none

/-- Headers of the request each client method builds. -/
def methodRequestHeaders (adminKey : String) (m : ClientMethod) : AList String :=
  fetchHeaders adminKey (methodOptionsHeaders m)

/-- Hook `useConfigChanges()`: throws when the context value is undefined
(hook used outside `ConfigChangesProvider`), otherwise returns the
context value. -/
def useConfigChanges {α : Type} (ctx : Option α) : Except String α :=
  match ctx with
  | none => .error "useConfigChanges must be used within ConfigChangesProvider"
  | some v => .ok v

/-! ### Lemmas about the object primitives -/

theorem olookup_eq_none_of_not_mem {β : Type} (o : AList β) (k : String)
    (h : k ∉ keysOf o) : olookup o k = none := by
  induction o with
  | nil => rfl
  | cons p t ih =>
    obtain ⟨k₀, v₀⟩ := p
    simp only [keysOf, List.map_cons, List.mem_cons, not_or] at h
    simp only [olookup, beq_iff_eq]
    rw [if_neg (fun hk => h.1 hk.symm)]
    exact ih (by simpa [keysOf] using h.2)

theorem olookup_isSome_of_mem {β : Type} (o : AList β) (k : String)
    (h : k ∈ keysOf o) : ∃ v, olookup o k = some v := by
  induction o with
  | nil => simp [keysOf] at h
  | cons p t ih =>
    obtain ⟨k₀, v₀⟩ := p
    by_cases hk : k₀ = k
    · exact ⟨v₀, by simp [olookup, hk]⟩
    · simp only [keysOf, List.map_cons, List.mem_cons] at h
      rcases h with h | h
      · exact absurd h.symm hk
      · obtain ⟨v, hv⟩ := ih (by simpa [keysOf] using h)
        exact ⟨v, by simpa [olookup, hk] using hv⟩

theorem olookup_oset_self {β : Type} (o : AList β) (k : String) (v : β) :
    olookup (oset o k v) k = some v := by
  induction o with
  | nil => simp [oset, olookup]
  | cons p t ih =>
    obtain ⟨k₀, v₀⟩ := p
    by_cases h : k₀ = k
    · subst h
      simp [oset, olookup]
    · simp [oset, olookup, h, ih]

theorem olookup_oset_ne {β : Type} (o : AList β) (k k' : String) (v : β)
    (h : k' ≠ k) : olookup (oset o k v) k' = olookup o k' := by
  induction o with
  | nil => simp [oset, olookup, Ne.symm h]
  | cons p t ih =>
    obtain ⟨k₀, v₀⟩ := p
    by_cases hk : k₀ = k
    · subst hk
      simp [oset, olookup, Ne.symm h]
    · by_cases hk' : k₀ = k'
      · simp [oset, olookup, hk, hk', h]
      · simp [oset, olookup, hk, hk', h, ih]

theorem olookup_ospread_not_mem {β : Type} (a b : AList β) (k : String)
    (h : k ∉ keysOf b) : olookup (ospread a b) k = olookup a k := by
  induction b generalizing a with
  | nil => rfl
  | cons p t ih =>
    simp only [keysOf, List.map_cons, List.mem_cons, not_or] at h
    show olookup (ospread (oset a p.1 p.2) t) k = olookup a k
    rw [ih (oset a p.1 p.2) (by simpa [keysOf] using h.2)]
    exact olookup_oset_ne a p.1 k p.2 h.1

theorem olookup_ospread_some {β : Type} (a b : AList β) (k : String) (v : β)
    (hnd : (keysOf b).Nodup) (h : olookup b k = some v) :
    olookup (ospread a b) k = some v := by
  induction b generalizing a with
  | nil => simp [olookup] at h
  | cons p t ih =>
    obtain ⟨k₀, v₀⟩ := p
    simp only [keysOf, List.map_cons, List.nodup_cons] at hnd
    show olookup (ospread (oset a k₀ v₀) t) k = some v
    by_cases hpk : k₀ = k
    · subst hpk
      have hv : v₀ = v := by simpa [olookup] using h
      rw [olookup_ospread_not_mem (oset a k₀ v₀) t k₀
        (by simpa [keysOf] using hnd.1)]
      rw [← hv]
      exact olookup_oset_self a k₀ v₀
    · have ht : olookup t k = some v := by simpa [olookup, hpk] using h
      exact ih (oset a k₀ v₀) (by simpa [keysOf] using hnd.2) ht

theorem olookup_ospread_none {β : Type} (a b : AList β) (k : String)
    (h : olookup b k = none) : olookup (ospread a b) k = olookup a k := by
  apply olookup_ospread_not_mem
  intro hmem
  obtain ⟨v, hv⟩ := olookup_isSome_of_mem b k hmem
  rw [h] at hv
  exact Option.noConfusion hv

theorem keysOf_length_eq_zero {β : Type} (o : AList β)
    (h : (keysOf o).length = 0) : o = [] := by
  cases o with
  | nil => rfl
  | cons p t => simp [keysOf] at h

theorem aiStep_olookup_ne (acc : JObj) (p : String × JVal) (k : String)
    (h : p.1 ≠ k) : olookup (aiStep acc p) k = olookup acc k :=
  olookup_oset_ne acc p.1 k _ (Ne.symm h)

theorem aiStep_olookup_self (acc : JObj) (k : String) (uv : JVal) :
    olookup (aiStep acc (k, uv)) k = some (aiMergeValue (olookup acc k) uv) :=
  olookup_oset_self acc k _

theorem foldl_aiStep_not_mem (u : JObj) (acc : JObj) (k : String)
    (h : k ∉ keysOf u) : olookup (u.foldl aiStep acc) k = olookup acc k := by
  induction u generalizing acc with
  | nil => rfl
  | cons p t ih =>
    simp only [keysOf, List.map_cons, List.mem_cons, not_or] at h
    show olookup (t.foldl aiStep (aiStep acc p)) k = olookup acc k
    rw [ih (aiStep acc p) (by simpa [keysOf] using h.2)]
    exact aiStep_olookup_ne acc p k (fun hp => h.1 hp.symm)

theorem foldl_aiStep_mem (u : JObj) (acc : JObj) (k : String) (uv : JVal)
    (hnd : (keysOf u).Nodup) (hmem : (k, uv) ∈ u) :
    olookup (u.foldl aiStep acc) k = some (aiMergeValue (olookup acc k) uv) := by
  induction u generalizing acc with
  | nil => simp at hmem
  | cons p t ih =>
    simp only [keysOf, List.map_cons, List.nodup_cons] at hnd
    show olookup (t.foldl aiStep (aiStep acc p)) k
      = some (aiMergeValue (olookup acc k) uv)
    rcases List.mem_cons.mp hmem with heq | htail
    · subst heq
      rw [foldl_aiStep_not_mem t (aiStep acc (k, uv)) k
        (by simpa [keysOf] using hnd.1)]
      exact aiStep_olookup_self acc k uv
    · have hk : p.1 ≠ k := by
        intro hp
        exact hnd.1 (hp ▸ List.mem_map_of_mem Prod.fst htail)
      rw [ih (aiStep acc p) (by simpa [keysOf] using hnd.2) htail]
      rw [aiStep_olookup_ne acc p k hk]

theorem aiProviderKeys_length_pos (u : UpdateAIProviderRequest) :
    (aiProviderKeys u).length > 0 := by
  simp [aiProviderKeys]

/-! ### Claim theorems -/

/-- Claim C1: for every server config `S`, the merge-for-display operation
applied to `S` and an empty pending-changes overlay yields a configuration
equal to `S` — the empty patch is the identity of the merge. -/
theorem C1_merge_empty_patch_identity (S : JObj) (pc : PendingChanges)
    (h : hasPendingChanges pc = false) : mergeForDisplay S pc = S := by
  simp only [hasPendingChanges, Bool.or_eq_false_iff, decide_eq_false_iff_not,
    gt_iff_lt, Nat.not_lt, Nat.le_zero] at h
  have hc : pc.config.getD [] = [] := keysOf_length_eq_zero _ h.1
  show ospread S (pc.config.getD []) = S
  rw [hc]
  rfl

/-- Witness for C1 at a concrete server config and the initial empty
overlay of the provider. -/
theorem C1_witness :
    hasPendingChanges emptyPendingChanges = false
    ∧ mergeForDisplay [("invisible", JVal.bool true)] emptyPendingChanges
        = [("invisible", JVal.bool true)] :=
  ⟨rfl, C1_merge_empty_patch_identity [("invisible", JVal.bool true)]
    emptyPendingChanges rfl⟩

/-- Claim C5: for every server config `S` and generic patch `P` whose
entries assign only top-level scalar fields, the merged view takes the
patch value for every key present in `P` and the server value for every
key absent from `P` (one-level shallow overlay). -/
theorem C5_shallow_overlay (S P : JObj) (ai : Option JObj) (k : String)
    (hnd : (keysOf P).Nodup)
    (hscalar : ∀ p ∈ P, typeofIsObject p.2 = false) :
    (k ∈ keysOf P →
      olookup (mergeForDisplay S ⟨some P, ai⟩) k = olookup P k)
    ∧ (k ∉ keysOf P →
      olookup (mergeForDisplay S ⟨some P, ai⟩) k = olookup S k) := by
  constructor
  · intro hmem
    obtain ⟨v, hv⟩ := olookup_isSome_of_mem P k hmem
    rw [hv]
    show olookup (ospread S P) k = some v
    exact olookup_ospread_some S P k v hnd hv
  · intro hmem
    show olookup (ospread S P) k = olookup S k
    exact olookup_ospread_not_mem S P k hmem

/-- Witness for C5 at the cooldown scenario: the patched key reads back
from the patch, an untouched key reads back from the server snapshot. -/
theorem C5_witness :
    ((keysOf [("mentionCooldown", JVal.num 45)]).Nodup
      ∧ ∀ p ∈ [("mentionCooldown", JVal.num 45)], typeofIsObject p.2 = false)
    ∧ (("mentionCooldown" ∈ keysOf [("mentionCooldown", JVal.num 45)] →
        olookup (mergeForDisplay
          [("mentionCooldown", JVal.num 20), ("invisible", JVal.bool false)]
          ⟨some [("mentionCooldown", JVal.num 45)], none⟩) "mentionCooldown"
          = olookup [("mentionCooldown", JVal.num 45)] "mentionCooldown")
      ∧ ("mentionCooldown" ∉ keysOf [("mentionCooldown", JVal.num 45)] →
        olookup (mergeForDisplay
          [("mentionCooldown", JVal.num 20), ("invisible", JVal.bool false)]
          ⟨some [("mentionCooldown", JVal.num 45)], none⟩) "mentionCooldown"
          = olookup [("mentionCooldown", JVal.num 20), ("invisible", JVal.bool false)]
              "mentionCooldown"))
    ∧ (("invisible" ∈ keysOf [("mentionCooldown", JVal.num 45)] →
        olookup (mergeForDisplay
          [("mentionCooldown", JVal.num 20), ("invisible", JVal.bool false)]
          ⟨some [("mentionCooldown", JVal.num 45)], none⟩) "invisible"
          = olookup [("mentionCooldown", JVal.num 45)] "invisible")
      ∧ ("invisible" ∉ keysOf [("mentionCooldown", JVal.num 45)] →
        olookup (mergeForDisplay
          [("mentionCooldown", JVal.num 20), ("invisible", JVal.bool false)]
          ⟨some [("mentionCooldown", JVal.num 45)], none⟩) "invisible"
          = olookup [("mentionCooldown", JVal.num 20), ("invisible", JVal.bool false)]
              "invisible")) :=
  ⟨⟨by decide, by intro p hp; obtain rfl := List.mem_singleton.mp hp; rfl⟩,
    C5_shallow_overlay _ _ none "mentionCooldown" (by decide)
      (by intro p hp; obtain rfl := List.mem_singleton.mp hp; rfl),
    C5_shallow_overlay _ _ none "invisible" (by decide)
      (by intro p hp; obtain rfl := List.mem_singleton.mp hp; rfl)⟩

/-- Claim C3: `addAIConfigChange` deep-merges one level.  Concretely,
adding `{a:{x:1}}` then `{a:{y:2}}` to an empty slot yields
`{a:{x:1,y:2}}`, not `{a:{y:2}}`; in general, each key of the update whose
incoming value is a non-array object landing on an existing truthy object
value gets its fields merged (`{...current, ...update}`), and every other
incoming value overwrites directly — as captured by `aiMergeValue` applied
to the slot value before the call. -/
theorem C3_addAIConfigChange_deep_merge :
    ((addAIConfigChange
        (addAIConfigChange emptyPendingChanges
          [("a", JVal.obj [("x", JVal.num 1)])])
        [("a", JVal.obj [("y", JVal.num 2)])]).aiConfig
      = some [("a", JVal.obj [("x", JVal.num 1), ("y", JVal.num 2)])]
    ∧ (addAIConfigChange
        (addAIConfigChange emptyPendingChanges
          [("a", JVal.obj [("x", JVal.num 1)])])
        [("a", JVal.obj [("y", JVal.num 2)])]).aiConfig
      ≠ some [("a", JVal.obj [("y", JVal.num 2)])])
    ∧ ∀ (prev : PendingChanges) (updates : JObj) (k : String) (uv : JVal),
        (keysOf updates).Nodup → (k, uv) ∈ updates →
        olookup ((addAIConfigChange prev updates).aiConfig.getD []) k
          = some (aiMergeValue (olookup (prev.aiConfig.getD []) k) uv) := by
  have hconc : (addAIConfigChange
      (addAIConfigChange emptyPendingChanges
        [("a", JVal.obj [("x", JVal.num 1)])])
      [("a", JVal.obj [("y", JVal.num 2)])]).aiConfig
      = some [("a", JVal.obj [("x", JVal.num 1), ("y", JVal.num 2)])] := rfl
  refine ⟨⟨hconc, ?_⟩, ?_⟩
  · rw [hconc]
    intro h
    simp at h
  · intro prev updates k uv hnd hmem
    show olookup (updates.foldl aiStep (prev.aiConfig.getD [])) k
      = some (aiMergeValue (olookup (prev.aiConfig.getD []) k) uv)
    exact foldl_aiStep_mem updates (prev.aiConfig.getD []) k uv hnd hmem

/-- Witness for the general clause of C3 at a concrete call: applying a
scalar slot value with a scalar and merging into an object slot value. -/
theorem C3_witness :
    ((keysOf [("a", JVal.obj [("y", JVal.num 2)])]).Nodup
      ∧ ("a", JVal.obj [("y", JVal.num 2)]) ∈ [("a", JVal.obj [("y", JVal.num 2)])])
    ∧ olookup ((addAIConfigChange ⟨none, some [("a", JVal.obj [("x", JVal.num 1)])]⟩
        [("a", JVal.obj [("y", JVal.num 2)])]).aiConfig.getD []) "a"
      = some (aiMergeValue
          (olookup ([("a", JVal.obj [("x", JVal.num 1)])] : JObj) "a")
          (JVal.obj [("y", JVal.num 2)])) :=
  ⟨⟨by decide, List.mem_singleton.mpr rfl⟩,
    (C3_addAIConfigChange_deep_merge.2
      ⟨none, some [("a", JVal.obj [("x", JVal.num 1)])]⟩
      [("a", JVal.obj [("y", JVal.num 2)])] "a" (JVal.obj [("y", JVal.num 2)])
      (by decide) (List.mem_singleton.mpr rfl))⟩

/-- Claim C4: the single-provider variant `addAIProviderChange` replaces
the provider patch slot wholesale on every call — after patching openai
then anthropic, only the anthropic patch remains (last-write-wins). -/
theorem C4_addAIProviderChange_last_write_wins :
    ((addAIProviderChange
        (addAIProviderChange emptyPendingChangesV
          ⟨"openai", some "k1", none, none, none⟩)
        ⟨"anthropic", some "k2", none, none, none⟩).aiProvider
      = some ⟨"anthropic", some "k2", none, none, none⟩)
    ∧ ∀ (s : PendingChangesV) (u1 u2 : UpdateAIProviderRequest),
        addAIProviderChange (addAIProviderChange s u1) u2
          = addAIProviderChange s u2 :=
  ⟨rfl, fun _ _ _ => rfl⟩

/-- Claim C6: in every store state, `hasPendingChanges` is false exactly
when both patch slots are empty objects or absent, and true exactly when
either slot has at least one key; in particular, `addConfigChange({})` on
the empty store leaves it false. -/
theorem C6_hasPendingChanges_characterisation :
    (∀ pc : PendingChanges,
      (hasPendingChanges pc = false
        ↔ keysOf (pc.config.getD []) = [] ∧ keysOf (pc.aiConfig.getD []) = [])
      ∧ (hasPendingChanges pc = true
        ↔ 1 ≤ (keysOf (pc.config.getD [])).length
            ∨ 1 ≤ (keysOf (pc.aiConfig.getD [])).length))
    ∧ hasPendingChanges (addConfigChange emptyPendingChanges []) = false := by
  refine ⟨fun pc => ⟨?_, ?_⟩, rfl⟩
  · simp only [hasPendingChanges, Bool.or_eq_false_iff, decide_eq_false_iff_not,
      gt_iff_lt, Nat.not_lt, Nat.le_zero, List.length_eq_zero]
  · simp only [hasPendingChanges, Bool.or_eq_true, decide_eq_true_eq, gt_iff_lt]
    omega

/-- Claim C8: no store operation mutates the fetched server config; in the
cooldown scenario, patching `mentionCooldown` to 45 flips
`hasPendingChanges` and the merged view, and clearing reverts the merged
view to the untouched server value 20. -/
theorem C8_server_config_frame :
    (∀ (st : AppState) (u : JObj),
      (appAddConfigChange st u).serverConfig = st.serverConfig
      ∧ (appAddAIConfigChange st u).serverConfig = st.serverConfig
      ∧ (appClearChanges st).serverConfig = st.serverConfig)
    ∧ (let st0 : AppState :=
        ⟨[("mentionCooldown", JVal.num 20)], emptyPendingChanges⟩
       let st1 := appAddConfigChange st0 [("mentionCooldown", JVal.num 45)]
       let st2 := appClearChanges st1
       hasPendingChanges st1.pending = true
       ∧ olookup (mergeForDisplay st1.serverConfig st1.pending) "mentionCooldown"
           = some (JVal.num 45)
       ∧ olookup (mergeForDisplay st2.serverConfig st2.pending) "mentionCooldown"
           = some (JVal.num 20)
       ∧ st2.serverConfig = st0.serverConfig) :=
  ⟨fun _ _ => ⟨rfl, rfl, rfl⟩, ⟨rfl, rfl, rfl, rfl⟩⟩

/-- Claim C9: `useConfigChanges` throws when invoked outside a
`ConfigChangesProvider` (context value undefined) and otherwise returns
the context value without throwing. -/
theorem C9_useConfigChanges_guard :
    (∀ (α : Type),
      useConfigChanges (none : Option α)
        = Except.error "useConfigChanges must be used within ConfigChangesProvider")
    ∧ ∀ (α : Type) (v : α), useConfigChanges (some v) = Except.ok v :=
  ⟨fun _ => rfl, fun _ _ => rfl⟩

/-- Claim C10: every request built by `ConfigAPIClient.fetch` — through
any of the client methods, the health check included — carries the
`X-Admin-Key` header with the configured admin key, because the
caller-supplied headers object is spread after the defaults and the empty
object removes nothing. -/
theorem C10_admin_key_on_every_request :
    ∀ (adminKey : String) (m : ClientMethod),
      olookup (methodRequestHeaders adminKey m) "X-Admin-Key" = some adminKey := by
  intro adminKey m
  cases m <;> rfl

/-- Claim C2: a save triggered while `hasPendingChanges` holds submits the
generic patch slot (when non-empty) as `PATCH /config`, the AI-provider
patch slot (when non-empty) as `PATCH /config/ai-provider`, and then
clears both slots. -/
theorem C2_save_flushes_both_slots (s : PendingChangesV)
    (h : hasPendingChangesV s = true) :
    (handleSave none none s).sent
      = (match s.config with
         | some c =>
           if (keysOf c).length > 0 then [mkUpdateConfigRequest c] else []
         | none => [])
        ++ (match s.aiProvider with
            | some u =>
              if (aiProviderKeys u).length > 0 then [mkUpdateAIProviderRequest u]
              else []
            | none => [])
    ∧ (handleSave none none s).pending = emptyPendingChangesV
    ∧ (handleSave none none s).toast
        = Toast.success "Configuration saved successfully" := by
  obtain ⟨cfg, ai⟩ := s
  cases cfg <;> cases ai <;>
    simp_all [handleSave, getPendingChanges, clearChangesV, hasPendingChangesV,
      aiProviderKeys_length_pos] <;>
    split_ifs <;>
    simp_all

/-- Witness for C2: a store holding one generic edit and one provider edit
flushes both requests and ends cleared. -/
theorem C2_witness :
    (hasPendingChangesV
      ⟨some [("invisible", JVal.bool true)],
        some ⟨"openai", some "k1", none, none, none⟩⟩ = true)
    ∧ (handleSave none none
        ⟨some [("invisible", JVal.bool true)],
          some ⟨"openai", some "k1", none, none, none⟩⟩).pending
        = emptyPendingChangesV
    ∧ (handleSave none none
        ⟨some [("invisible", JVal.bool true)],
          some ⟨"openai", some "k1", none, none, none⟩⟩).toast
        = Toast.success "Configuration saved successfully" := by
  refine ⟨by decide, ?_, ?_⟩
  · exact (C2_save_flushes_both_slots
      ⟨some [("invisible", JVal.bool true)],
        some ⟨"openai", some "k1", none, none, none⟩⟩ (by decide)).2.1
  · exact (C2_save_flushes_both_slots
      ⟨some [("invisible", JVal.bool true)],
        some ⟨"openai", some "k1", none, none, none⟩⟩ (by decide)).2.2

/-- Claim C7: whenever a backend mutation rejects during a save run, the
handler surfaces an error toast and does not invoke `clearChanges`, so the
pending overlay after the failed save equals the overlay before it. -/
theorem C7_save_error_preserves_pending (s : PendingChangesV)
    (r1 r2 : Option String) (h : saveRejects r1 r2 s = true) :
    (∃ msg, (handleSave r1 r2 s).toast = Toast.error msg)
    ∧ (handleSave r1 r2 s).pending = s := by
  obtain ⟨cfg, ai⟩ := s
  cases cfg <;> cases ai <;> cases r1 <;> cases r2 <;>
    simp_all [handleSave, saveRejects, configAttempted, aiAttempted,
      getPendingChanges, hasPendingChangesV, aiProviderKeys_length_pos] <;>
    split_ifs <;>
    simp_all

/-- Witness for C7: the config mutation rejecting with message `boom`
leaves the overlay exactly as it was. -/
theorem C7_witness :
    (saveRejects (some "boom") none
      ⟨some [("invisible", JVal.bool true)], none⟩ = true)
    ∧ (∃ msg, (handleSave (some "boom") none
        ⟨some [("invisible", JVal.bool true)], none⟩).toast = Toast.error msg)
    ∧ (handleSave (some "boom") none
        ⟨some [("invisible", JVal.bool true)], none⟩).pending
        = ⟨some [("invisible", JVal.bool true)], none⟩ := by
  refine ⟨by decide, ?_, ?_⟩
  · exact (C7_save_error_preserves_pending
      ⟨some [("invisible", JVal.bool true)], none⟩ (some "boom") none
      (by decide)).1
  · exact (C7_save_error_preserves_pending
      ⟨some [("invisible", JVal.bool true)], none⟩ (some "boom") none
      (by decide)).2

end BruhBot
